import Mathlib

/-!
# go-trustpilot: the request / authentication / error-mapping pipeline

A shallow embedding of `client.go` and `trustpilot.go`.

Go values are modelled as follows.

* A Go `error` is a `GoError`; a nil error is `none : Option GoError`.
* A Go `(value, error)` result is a pair of options, so that the combination
  `(nil, nil)` can be expressed.
* A nil pointer dereference is the outcome `Go.panic`.
* The standard library (`net/url`, `net/http`, `encoding/json`) and
  `golang.org/x/oauth2` are outside the repository.  The parts the client
  relies on are modelled next to their use, each with a comment saying what
  is kept.  What `url.Parse` makes of a URL that is not in canonical form,
  what the token endpoint answers and what the network answers are
  parameters.
-/

namespace Trustpilot

/-! ## Errors -/

/-- The four package level error values of `client.go`. -/
inductive ErrKind where
  | NotFound
  | InvalidArgument
  | Internal
  | Unauthenticated
  deriving DecidableEq, Repr

/-- The text given to `errors.New` for each package level error. -/
def ErrKind.text : ErrKind → String
  | .NotFound => "NOT_FOUND"
  | .InvalidArgument => "INVALID_ARGUMENT"
  | .Internal => "INTERNAL"
  | .Unauthenticated => "UNAUTHENTICATED"

/-- A non-nil Go `error` value, as far as the client can tell them apart.

* `domain k`: one of the four package level values.
* `wrapped msg k`: the value of `fmt.Errorf("%s: %w", msg, k)`.
* `retrieve status msg`: an `*oauth2.RetrieveError` whose response has the
  given status code and whose `Error()` text is `msg`.
* `other msg`: any other error (transport, JSON, request construction). -/
inductive GoError where
  | domain (k : ErrKind)
  | wrapped (msg : String) (k : ErrKind)
  | retrieve (status : Int) (msg : String)
  | other (msg : String)
  deriving DecidableEq, Repr

def ErrNotFound : GoError := .domain .NotFound
def ErrInvalidArgument : GoError := .domain .InvalidArgument
def ErrInternal : GoError := .domain .Internal
def ErrUnauthenticated : GoError := .domain .Unauthenticated

/-- The result of the `Error()` method. -/
def GoError.Error : GoError → String
  | .domain k => k.text
  | .wrapped msg k => msg ++ ": " ++ k.text
  | .retrieve _ msg => msg
  | .other msg => msg

/-- The package level error found by `errors.Is`, walking the `%w` chain. -/
def GoError.kind : GoError → Option ErrKind
  | .domain k => some k
  | .wrapped _ k => some k
  | .retrieve _ _ => none
  | .other _ => none

/-- Outcome of a Go call that may dereference a nil pointer. -/
inductive Go (α : Type) where
  | ret (a : α)
  | panic
  deriving Repr

/-! ## Status codes (`net/http` constants) -/

def StatusOK : Int := 200
def StatusCreated : Int := 201
def StatusAccepted : Int := 202
def StatusBadRequest : Int := 400
def StatusUnauthorized : Int := 401
def StatusNotFound : Int := 404
def StatusUnprocessableEntity : Int := 422

/-- The function `parseError` of `client.go`, on the `StatusCode` field of the response. -/
def parseError (statusCode : Int) : Option GoError :=
  if statusCode = StatusOK ∨ statusCode = StatusCreated ∨ statusCode = StatusAccepted then
    none
  else if statusCode = StatusBadRequest ∨ statusCode = StatusUnprocessableEntity then
    some ErrInvalidArgument
  else if statusCode = StatusUnauthorized then
    some ErrUnauthenticated
  else if statusCode = StatusNotFound then
    some ErrNotFound
  else
    some ErrInternal

/-! ## URLs (`net/url`)

The client builds its base URLs as struct literals with `Scheme`, `Host` and
`Path`; these are the fields kept.  `ResolveReference` percent-encodes both
paths, resolves them and decodes the result; the encoding maps `/` and `.` to
themselves and every other byte to text without `/`, so resolution is
modelled on the decoded paths directly. -/

structure URL where
  Scheme : String
  Host : String
  Path : String
  deriving DecidableEq, Repr

/-- The pieces of `strings.Split(s, "/")`, which are the successive `elem`
values that `strings.Cut(remaining, "/")` yields in the loop of
`resolvePath`. -/
def splitSlash : List Char → List (List Char)
  | [] => [[]]
  | c :: cs =>
    if c = '/' then [] :: splitSlash cs
    else
      match splitSlash cs with
      | [] => [[c]]
      | s :: ss => (c :: s) :: ss

/-- The slice `base[:i+1]` for `i = strings.LastIndex(base, "/")`: everything
up to and including the last slash, empty when there is none. -/
def uptoLastSlash (base : List Char) : List Char :=
  (base.reverse.dropWhile (fun c => c != '/')).reverse

/-- The slice `str[:index]` for `index = strings.LastIndexByte(str, '/')`, or
`none` when `index == -1`. -/
def beforeLastSlash (str : List Char) : Option (List Char) :=
  match str.reverse.dropWhile (fun c => c != '/') with
  | [] => none
  | _ :: rest => some rest.reverse

/-- One iteration of the loop of `resolvePath` on the state `(dst, first)`. -/
def resolveStep (st : List Char × Bool) (elem : List Char) : List Char × Bool :=
  if elem = ['.'] then
    (st.1, false)
  else if elem = ['.', '.'] then
    match beforeLastSlash st.1.tail with
    | none => (['/'], true)
    | some p => ('/' :: p, st.2)
  else
    ((if st.2 then st.1 else st.1 ++ ['/']) ++ elem, false)

/-- The function `resolvePath` of `net/url` (RFC 3986 sections 5.2.2 and 5.2.4). -/
def resolvePath (base ref : List Char) : List Char :=
  let full :=
    if ref = [] then base
    else if ref.head? ≠ some '/' then uptoLastSlash base ++ ref
    else ref
  if full = [] then []
  else
    let segs := splitSlash full
    let st := segs.foldl resolveStep (['/'], true)
    let dst :=
      if segs.getLast? = some ['.'] ∨ segs.getLast? = some ['.', '.'] then st.1 ++ ['/']
      else st.1
    match dst with
    | _ :: '/' :: rest => '/' :: rest
    | _ => dst

/-- The method `(*URL).ResolveReference` for URLs without user info, opaque part, query
or fragment. -/
def URL.ResolveReference (u ref : URL) : URL :=
  let scheme := if ref.Scheme = "" then u.Scheme else ref.Scheme
  if ref.Scheme ≠ "" ∨ ref.Host ≠ "" then
    { Scheme := scheme, Host := ref.Host, Path := ⟨resolvePath ref.Path.data []⟩ }
  else
    { Scheme := scheme, Host := u.Host, Path := ⟨resolvePath u.Path.data ref.Path.data⟩ }

/-- No piece of the path between slashes is `.` or `..`, the two pieces that
`resolvePath` removes. -/
def dotFree (l : List Char) : Bool :=
  (splitSlash l).all (fun e => e != ['.'] && e != ['.', '.'])

def apiBaseURL : URL :=
  { Host := "api.trustpilot.com", Scheme := "https", Path := "/v1/" }

def invitationAPIBaseURL : URL :=
  { Host := "invitations-api.trustpilot.com", Scheme := "https", Path := "/v1/" }

def tokenURL : URL :=
  { Host := "api.trustpilot.com", Scheme := "https",
    Path := "/v1/oauth/oauth-business-users-for-applications/accesstoken" }

/-- The value of `fmt.Sprintf(invitationPathf, id)`, with
`invitationPathf = "private/business-units/%s/email-invitations"`. -/
def invitationPathf (id : String) : String :=
  "private/business-units/" ++ id ++ "/email-invitations"

/-! ## JSON (`encoding/json`)

A JSON document is kept as its value.  An object keeps its members in order,
which is the order `json.Marshal` writes struct fields in. -/

inductive JSON where
  | null
  | bool (b : Bool)
  | number (lit : String)
  | string (s : String)
  | array (elems : List JSON)
  | object (members : List (String × JSON))

/-- The member names of an object, in order; empty for any other value. -/
def JSON.keys : JSON → List String
  | .object members => members.map Prod.fst
  | _ => []

/-! ## Request and response records (`trustpilot.go`) -/

structure ServiceReviewInvitation where
  PreferredSendTime : String
  RedirectURI : String
  Tags : List String
  TemplateID : String
  deriving DecidableEq, Repr

structure CreateInvitationRequest where
  BusinessUnitID : String
  ConsumerEmail : String
  ReplyTo : String
  ReferenceNumber : String
  ConsumerName : String
  Locale : String
  LocationID : String
  SenderEmail : String
  SenderName : String
  ServiceReviewInvitation : Option ServiceReviewInvitation
  deriving DecidableEq, Repr

structure CreateInvitationResponse where
  deriving DecidableEq, Repr

structure ListTemplatesRequest where
  BusinessUnitID : String
  deriving DecidableEq, Repr

structure Template where
  ID : String
  Name : String
  IsDefaultTemplate : Bool
  Locale : String
  Type_ : String
  deriving DecidableEq, Repr

structure ListTemplatesResponse where
  Templates : List Template
  deriving DecidableEq, Repr

/-! ### Encoding

`json.Marshal` writes the exported fields of a struct in declaration order.
A field with a `json:"name"` tag is written under `name`, a field without a
tag under its Go name, and a field tagged `omitempty` is left out when it is
the empty string, a nil pointer or a slice of length zero.  Marshalling these
records cannot fail. -/

/-- A string field tagged `json:"key,omitempty"`. -/
def omitemptyString (key val : String) : List (String × JSON) :=
  if val = "" then [] else [(key, .string val)]

def ServiceReviewInvitation.Marshal (s : ServiceReviewInvitation) : JSON :=
  .object
    (omitemptyString "preferredSendTime" s.PreferredSendTime ++
     omitemptyString "redirectUri" s.RedirectURI ++
     (if s.Tags = [] then [] else [("tags", .array (s.Tags.map JSON.string))]) ++
     omitemptyString "templateId" s.TemplateID)

def CreateInvitationRequest.Marshal (r : CreateInvitationRequest) : JSON :=
  .object
    ([("BusinessUnitID", .string r.BusinessUnitID),
      ("consumerEmail", .string r.ConsumerEmail)] ++
     omitemptyString "replyTo" r.ReplyTo ++
     omitemptyString "referenceNumber" r.ReferenceNumber ++
     omitemptyString "consumerName" r.ConsumerName ++
     omitemptyString "locale" r.Locale ++
     omitemptyString "locationId" r.LocationID ++
     omitemptyString "senderEmail" r.SenderEmail ++
     omitemptyString "senderName" r.SenderName ++
     (match r.ServiceReviewInvitation with
      | none => []
      | some s => [("serviceReviewInvitation", s.Marshal)]))

def ListTemplatesRequest.Marshal (r : ListTemplatesRequest) : JSON :=
  .object [("BusinessUnitID", .string r.BusinessUnitID)]

/-- The non-nil values passed as `body interface{}` in this package. -/
inductive Body where
  | createInvitation (r : CreateInvitationRequest)
  | listTemplates (r : ListTemplatesRequest)
  deriving DecidableEq, Repr

/-- The call `json.Marshal(body)`. -/
def Body.Marshal : Body → JSON
  | .createInvitation r => r.Marshal
  | .listTemplates r => r.Marshal

/-! ### Decoding

`(*json.Decoder).Decode` reads one JSON value from the body and stores it in
the destination.  An object member is stored in the struct field whose name
equals the member name, or else equals it after case folding; other members
are skipped; a member that occurs again is stored again, on top of what the
field holds by then.  `null` leaves a string, bool or struct as it is and
makes a slice nil.  A value of the wrong kind is an `UnmarshalTypeError`, and
the first one is the error returned.  On an error the destination is reported
unchanged here: both callers drop it. -/

/-- The fold of one rune, as far as it matters for comparing with an ASCII
field name: the only non-ASCII runes whose fold is ASCII are U+017F and
U+212A. -/
def foldRune (c : Char) : Char :=
  if 'a' ≤ c ∧ c ≤ 'z' then Char.ofNat (c.toNat - 32)
  else if c.toNat = 0x17F then 'S'
  else if c.toNat = 0x212A then 'K'
  else c

def foldName (s : String) : String := ⟨s.data.map foldRune⟩

/-- The field a member name selects: exact match first, folded match next. -/
def matchField (names : List String) (key : String) : Option String :=
  match names.find? (fun n => n = key) with
  | some n => some n
  | none => names.find? (fun n => foldName n = foldName key)

/-- The kind of a JSON value as `UnmarshalTypeError` names it. -/
def JSON.kindName : JSON → String
  | .null => "null"
  | .bool _ => "bool"
  | .number _ => "number"
  | .string _ => "string"
  | .array _ => "array"
  | .object _ => "object"

/-- The text of an `UnmarshalTypeError`.  Inside a struct field the error
names the struct type and the path of field names from the root (`field`);
at the root there is no field. -/
def unmarshalTypeError (v : JSON) (field : Option (String × String)) (goType : String) :
    GoError :=
  match field with
  | some (struct, path) =>
    .other ("json: cannot unmarshal " ++ v.kindName ++ " into Go struct field " ++ struct ++ "." ++
      path ++ " of type " ++ goType)
  | none => .other ("json: cannot unmarshal " ++ v.kindName ++ " into Go value of type " ++ goType)

def decodeString (field : String × String) (cur : String) : JSON → Except GoError String
  | .string s => .ok s
  | .null => .ok cur
  | v => .error (unmarshalTypeError v (some field) "string")

def decodeBool (field : String × String) (cur : Bool) : JSON → Except GoError Bool
  | .bool b => .ok b
  | .null => .ok cur
  | v => .error (unmarshalTypeError v (some field) "bool")

/-- Storing one member of an object in a `Template` that is an element of
the `templates` field. -/
def Template.setField (t : Template) (key : String) (v : JSON) : Except GoError Template :=
  match matchField ["id", "name", "isDefaultTemplate", "locale", "type"] key with
  | some "id" =>
    (decodeString ("Template", "templates.id") t.ID v).map (fun s => { t with ID := s })
  | some "name" =>
    (decodeString ("Template", "templates.name") t.Name v).map (fun s => { t with Name := s })
  | some "isDefaultTemplate" =>
    (decodeBool ("Template", "templates.isDefaultTemplate") t.IsDefaultTemplate v).map
      (fun b => { t with IsDefaultTemplate := b })
  | some "locale" =>
    (decodeString ("Template", "templates.locale") t.Locale v).map
      (fun s => { t with Locale := s })
  | some "type" =>
    (decodeString ("Template", "templates.type") t.Type_ v).map (fun s => { t with Type_ := s })
  | _ => .ok t

def Template.Unmarshal (t : Template) : JSON → Except GoError Template
  | .null => .ok t
  | .object members => members.foldlM (fun acc kv => acc.setField kv.1 kv.2) t
  | v => .error (unmarshalTypeError v (some ("ListTemplatesResponse", "templates"))
      "trustpilot.Template")

/-- Decoding the elements of an array one by one: element `i` is decoded into
what the backing array of the slice holds at `i`, and into a zero `Template`
past its end. -/
def decodeElems : List Template → List JSON → Except GoError (List Template)
  | _, [] => .ok []
  | backing, e :: es =>
    match Template.Unmarshal (backing.headD ⟨"", "", false, "", ""⟩) e with
    | .error err => .error err
    | .ok t => (decodeElems backing.tail es).map (fun ts => t :: ts)

/-- Decoding into the `Templates []Template` field, given the elements that
the backing array of the slice holds (those of the slice and, after it was
cut shorter, the ones left behind).  The result is the new slice and the new
backing array: `null` and the empty array give a fresh empty slice, a longer
array is decoded into the existing elements and cut to its length. -/
def decodeTemplates (backing : List Template) :
    JSON → Except GoError (List Template × List Template)
  | .null => .ok ([], [])
  | .array [] => .ok ([], [])
  | .array elems =>
    (decodeElems backing elems).map (fun ts => (ts, ts ++ backing.drop ts.length))
  | v => .error (unmarshalTypeError v (some ("ListTemplatesResponse", "templates"))
      "[]trustpilot.Template")

def ListTemplatesResponse.Unmarshal (res : ListTemplatesResponse) :
    JSON → Except GoError ListTemplatesResponse
  | .null => .ok res
  | .object members =>
    (members.foldlM
      (fun (st : ListTemplatesResponse × List Template) (kv : String × JSON) =>
        match matchField ["templates"] kv.1 with
        | some _ =>
          (decodeTemplates st.2 kv.2).map
            (fun (p : List Template × List Template) =>
              (({ Templates := p.1 } : ListTemplatesResponse), p.2))
        | none => .ok st)
      (res, res.Templates)).map Prod.fst
  | v => .error (unmarshalTypeError v none "trustpilot.ListTemplatesResponse")

/-- The struct has no fields, so every member of an object is skipped. -/
def CreateInvitationResponse.Unmarshal (res : CreateInvitationResponse) :
    JSON → Except GoError CreateInvitationResponse
  | .null => .ok res
  | .object _ => .ok res
  | v => .error (unmarshalTypeError v none "trustpilot.CreateInvitationResponse")

/-! ## HTTP (`net/http`) -/

/-- A header map restricted to one value per key.  The keys the client sets
are already in canonical form. -/
abbrev Header := List (String × String)

def Header.Set (h : Header) (key value : String) : Header :=
  (key, value) :: h.filter (fun kv => kv.1 != key)

def Header.Get (h : Header) (key : String) : Option String :=
  (h.find? (fun kv => kv.1 == key)).map Prod.snd

/-- An outgoing request.  `Body` is the payload read from
`bytes.NewReader(b)`: `none` when `b` is nil (no bytes), `some j` when `b` is
the serialisation of `j`. -/
structure Request where
  Method : String
  URL : URL
  Header : Header
  Body : Option JSON

/-- What the body of a response holds: no bytes at all, a JSON value
(followed by anything), or bytes that do not start with a JSON value, for
which the decoder reports the given syntax error. -/
inductive RespBody where
  | empty
  | value (j : JSON)
  | malformed (syntaxError : String)

/-- An incoming response.  `ContentLength` is `-1` when the length is not
known and `0` only when the body is empty. -/
structure Response where
  StatusCode : Int
  ContentLength : Int
  Body : RespBody

/-- The call `json.NewDecoder(resp.Body).Decode(v)` for a destination with the given
unmarshalling rule; on an empty body the decoder returns `io.EOF`. -/
def Decode {α : Type} (unmarshal : α → JSON → Except GoError α) (body : RespBody) (v : α) :
    Except GoError α :=
  match body with
  | .empty => .error (.other "EOF")
  | .malformed syntaxError => .error (.other syntaxError)
  | .value j => unmarshal v j

/-- The code points of `httpguts.IsTokenRune` other than letters and digits:
`! # $ % & ' * + - . ^ _ backquote | ~`. -/
def tokenMarks : List Nat := [33, 35, 36, 37, 38, 39, 42, 43, 45, 46, 94, 95, 96, 124, 126]

def isTokenRune (c : Char) : Bool :=
  ('a' ≤ c ∧ c ≤ 'z') || ('A' ≤ c ∧ c ≤ 'Z') || ('0' ≤ c ∧ c ≤ '9') || tokenMarks.contains c.toNat

def validMethod (method : String) : Bool :=
  method.length > 0 && method.data.all isTokenRune

/-- The outcome of `url.Parse(u.String())`, read as the `Scheme`, `Host` and
`Path` of the URL it returns.  `net/url` is outside the repository, so the
parse is a parameter of everything that builds a request. -/
abbrev URLParse := URL → Except GoError URL

def isLowerAlpha (c : Char) : Bool := decide ('a' ≤ c) && decide (c ≤ 'z')

def isUpperAlpha (c : Char) : Bool := decide ('A' ≤ c) && decide (c ≤ 'Z')

def isDigit (c : Char) : Bool := decide ('0' ≤ c) && decide (c ≤ '9')

/-- A scheme of lower-case letters. -/
def canonicalScheme (s : String) : Bool :=
  !s.data.isEmpty && s.data.all isLowerAlpha

/-- A host of lower-case letters, digits, dots and hyphens, followed or not
by a colon and a port of one or more digits. -/
def canonicalHost (h : String) : Bool :=
  let name := h.data.takeWhile (fun c => c != ':')
  let port := h.data.dropWhile (fun c => c != ':')
  !name.isEmpty &&
    name.all (fun c => isLowerAlpha c || isDigit c || c == '.' || c == '-') &&
    (port.isEmpty || (!port.tail.isEmpty && port.tail.all isDigit))

/-- A path that begins with a slash and is made of slashes and the
unreserved characters of RFC 3986 (letters, digits, `-`, `.`, `_`, `~`). -/
def canonicalPath (p : String) : Bool :=
  p.data.head? == some '/' &&
    p.data.all (fun c =>
      isLowerAlpha c || isUpperAlpha c || isDigit c || c == '-' || c == '.' || c == '_' ||
        c == '~' || c == '/')

/-- A URL that `String()` writes as `scheme://host/path` with nothing
escaped, and that `url.Parse` reads back field by field: the scheme is
already lower-case, the host has nothing to reject and the path nothing to
decode. -/
def URL.canonical (u : URL) : Bool :=
  canonicalScheme u.Scheme && canonicalHost u.Host && canonicalPath u.Path

/-- The index that `strings.LastIndex(s, c)` returns, `-1` when `c` does not
occur. -/
def lastIndex (c : Char) (s : List Char) : Int :=
  s.enum.foldl (fun acc p => if p.2 = c then (p.1 : Int) else acc) (-1)

/-- The function `hasPort` of `net/http`. -/
def hasPort (s : String) : Bool :=
  decide (lastIndex ':' s.data > lastIndex ']' s.data)

/-- The function `removeEmptyPort` of `net/http`: `strings.TrimSuffix(host, ":")`
when the host has a port. -/
def removeEmptyPort (host : String) : String :=
  if hasPort host then
    (if host.data.getLast? = some ':' then ⟨host.data.dropLast⟩ else host)
  else host

/-- The call `http.NewRequest(method, u.String(), bytes.NewReader(b))`: the
method is checked first, then `u.String()` is parsed again and the host of
the result loses an empty port.  For a canonical URL the parse returns the
URL itself; for any other URL the outcome is the one `parse` gives (an error,
or a URL that may differ from `u`).  The method is quoted in the error text
as `%q` does for plain text. -/
def NewRequest (parse : URLParse) (method : String) (u : URL) (b : Option JSON) :
    Except GoError Request :=
  let method := if method = "" then "GET" else method
  if validMethod method then
    match (if u.canonical then .ok u else parse u) with
    | .error err => .error err
    | .ok parsed =>
      .ok { Method := method
            URL := { parsed with Host := removeEmptyPort parsed.Host }
            Header := []
            Body := b }
  else
    .error (.other ("net/http: invalid method " ++ method.quote))

/-- An `*http.Client`: its timeout in nanoseconds and the outcome of `Do` on
a request (the context passed to `do` is part of that outcome). -/
structure HTTPClient where
  Timeout : Int
  Do : Request → Except GoError Response

/-! ## OAuth2 (`golang.org/x/oauth2`) -/

structure Token where
  AccessToken : String
  deriving DecidableEq, Repr

/-- An `oauth2.TokenSource`, given by the outcome of its `Token()` method at
the time the client calls it. -/
structure TokenSource where
  Token : Except GoError Token

structure PasswordGrantConfig where
  ClientID : String
  ClientSecret : String
  Username : String
  Password : String
  deriving DecidableEq, Repr

/-- The fields of `oauth2.Config` that `NewClient` sets. -/
structure OAuthConfig where
  ClientID : String
  ClientSecret : String
  TokenURL : URL
  deriving DecidableEq, Repr

/-- The world outside the client: the token endpoint reached by
`PasswordCredentialsToken`, the token source that
`oauth2.ReuseTokenSource(t, oauthConfig.TokenSource(ctx, t))` gives, and the
network behind the default `http.Client`. -/
structure Env where
  PasswordCredentialsToken : OAuthConfig → String → String → Except GoError Token
  ReuseTokenSource : OAuthConfig → Token → TokenSource
  DefaultDo : Request → Except GoError Response

/-! ## The client (`client.go`) -/

/-- The `Client` struct.  A pointer field is an `Option`, `none` being nil. -/
structure Client where
  debug : Bool
  apiBaseURL : Option URL
  invitationAPIBaseURL : Option URL
  tokenURL : Option URL
  authConfig : Option PasswordGrantConfig
  tokenSource : Option TokenSource
  httpClient : Option HTTPClient

/-- A `ClientOption`, which is any `func(*Client) error`: running it on the
client gives the client afterwards together with the returned error, or
panics (as the call of a nil function value does). -/
structure ClientOption where
  run : Client → Go (Client × Option GoError)

def ClientOption.APIBaseURL (u : Option URL) : ClientOption :=
  ⟨fun c => .ret ({ c with apiBaseURL := u }, none)⟩

def ClientOption.TokenURL (u : Option URL) : ClientOption :=
  ⟨fun c => .ret ({ c with tokenURL := u }, none)⟩

def ClientOption.InvitationAPIBaseURL (u : Option URL) : ClientOption :=
  ⟨fun c => .ret ({ c with invitationAPIBaseURL := u }, none)⟩

def ClientOption.AuthConfig (conf : Option PasswordGrantConfig) : ClientOption :=
  ⟨fun c => .ret ({ c with authConfig := conf }, none)⟩

def ClientOption.Debug (b : Bool) : ClientOption :=
  ⟨fun c => .ret ({ c with debug := b }, none)⟩

def ClientOption.HTTPClient (h : Option HTTPClient) : ClientOption :=
  ⟨fun c => .ret ({ c with httpClient := h }, none)⟩

/-- The loop of `applyOptions`: the client after the options that ran and the
first error returned, if any. -/
def Client.applyOptions (c : Client) : List ClientOption → Go (Client × Option GoError)
  | [] => .ret (c, none)
  | o :: opts =>
    match o.run c with
    | .panic => .panic
    | .ret (c1, some err) => .ret (c1, some err)
    | .ret (c1, none) => Client.applyOptions c1 opts

/-- The duration `time.Second * 30`, in nanoseconds. -/
def defaultTimeout : Int := 1000000000 * 30

def NewClient (env : Env) (opts : List ClientOption) : Go (Option Client × Option GoError) :=
  let c : Client :=
    { debug := false
      apiBaseURL := some apiBaseURL
      invitationAPIBaseURL := some invitationAPIBaseURL
      tokenURL := some tokenURL
      authConfig := none
      tokenSource := none
      httpClient := some { Timeout := defaultTimeout, Do := env.DefaultDo } }
  match c.applyOptions opts with
  | .panic => .panic
  | .ret (_, some err) => .ret (none, some err)
  | .ret (c, none) =>
    -- Assume authentication is not required for the API.
    match c.authConfig with
    | none => .ret (some c, none)
    | some authConfig =>
      -- Set up oauth2 password grant flow.
      match c.tokenURL with
      | none => .panic
      | some tokenURL =>
        let oauthConfig : OAuthConfig :=
          { ClientID := authConfig.ClientID
            ClientSecret := authConfig.ClientSecret
            TokenURL := tokenURL }
        match env.PasswordCredentialsToken oauthConfig authConfig.Username authConfig.Password with
        | .error err => .ret (none, some err)
        | .ok t =>
          .ret (some { c with tokenSource := some (env.ReuseTokenSource oauthConfig t) }, none)

/-- The error that `newRequest` builds from a failed `tokenSource.Token()`:
the variable `e` at the `return nil, e`. -/
def classifyTokenError (err : GoError) : Option GoError :=
  match err with
  | .retrieve statusCode msg =>
    if statusCode = StatusUnauthorized then some (.wrapped msg .Unauthenticated)
    else if statusCode = StatusBadRequest then some (.wrapped msg .InvalidArgument)
    else if statusCode = StatusNotFound then some (.wrapped msg .NotFound)
    else some (.wrapped msg .Internal)
  | _ => none

def Client.newRequest (c : Client) (parse : URLParse) (method : String) (u : URL)
    (body : Option Body) : Option Request × Option GoError :=
  let b : Option JSON := body.map Body.Marshal
  match NewRequest parse method u b with
  | .error err => (none, some err)
  | .ok req =>
    let req :=
      if body.isSome then { req with Header := req.Header.Set "Content-Type" "application/json" }
      else req
    match c.tokenSource with
    | none => (some req, none)
    | some tokenSource =>
      -- Use the token for authentication.
      match tokenSource.Token with
      | .error err => (none, classifyTokenError err)
      | .ok tkn =>
        (some { req with Header := req.Header.Set "Authorization" ("Bearer " ++ tkn.AccessToken) },
          none)

def Client.newAPIRequest (c : Client) (parse : URLParse) (method path : String)
    (body : Option Body) : Go (Option Request × Option GoError) :=
  match c.apiBaseURL with
  | none => .panic
  | some base =>
    let u := base.ResolveReference { Scheme := "", Host := "", Path := path }
    .ret (c.newRequest parse method u body)

def Client.newInvitationAPIRequest (c : Client) (parse : URLParse) (method path : String)
    (body : Option Body) : Go (Option Request × Option GoError) :=
  match c.invitationAPIBaseURL with
  | none => .panic
  | some base =>
    let u := base.ResolveReference { Scheme := "", Host := "", Path := path }
    .ret (c.newRequest parse method u body)

/-- The method `Client.do`.  The result is the returned pair together with the
destination `v` after the call.  With `debug` set the request and the
response are printed, which changes no result. -/
def Client.do {α : Type} (unmarshal : α → JSON → Except GoError α) (c : Client)
    (req : Option Request) (v : Option α) :
    Go ((Option Response × Option GoError) × Option α) :=
  match req, c.httpClient with
  | none, _ => .panic
  | _, none => .panic
  | some req, some httpClient =>
    match httpClient.Do req with
    | .error err => .ret ((none, some err), v)
    | .ok resp =>
      match v with
      | none => .ret ((some resp, none), v)
      | some dst =>
        if resp.ContentLength ≠ 0 then
          match Decode unmarshal resp.Body dst with
          | .error err => .ret ((some resp, some err), v)
          | .ok dst1 => .ret ((some resp, none), some dst1)
        else .ret ((some resp, none), v)

def Client.CreateInvitation (c : Client) (parse : URLParse) (r : CreateInvitationRequest) :
    Go (Option CreateInvitationResponse × Option GoError) :=
  let path := invitationPathf r.BusinessUnitID
  match c.newInvitationAPIRequest parse "POST" path (some (.createInvitation r)) with
  | .panic => .panic
  | .ret (_, some err) => .ret (none, some err)
  | .ret (req, none) =>
    let res : CreateInvitationResponse := {}
    match c.do CreateInvitationResponse.Unmarshal req (some res) with
    | .panic => .panic
    | .ret ((_, some err), _) => .ret (none, some err)
    | .ret ((none, none), _) => .panic
    | .ret ((some resp, none), res) =>
      match parseError resp.StatusCode with
      | some err => .ret (none, some err)
      | none => .ret (res, none)

def Client.ListTemplates (c : Client) (parse : URLParse) (r : ListTemplatesRequest) :
    Go (Option ListTemplatesResponse × Option GoError) :=
  let path := invitationPathf r.BusinessUnitID
  match c.newInvitationAPIRequest parse "GET" path (some (.listTemplates r)) with
  | .panic => .panic
  | .ret (_, some err) => .ret (none, some err)
  | .ret (req, none) =>
    let res : ListTemplatesResponse := { Templates := [] }
    match c.do ListTemplatesResponse.Unmarshal req (some res) with
    | .panic => .panic
    | .ret ((_, some err), _) => .ret (none, some err)
    | .ret ((none, none), _) => .panic
    | .ret ((some resp, none), res) =>
      match parseError resp.StatusCode with
      | some err => .ret (none, some err)
      | none => .ret (res, none)

/-! ## The test input of `client_test.go` -/

/-- The client that `setup()` builds: both base URLs are the address of the
test server (no path), debug is on, there is no authentication, and the
server answers every request with `resp`. -/
def testClient (resp : Response) : Client :=
  { debug := true
    apiBaseURL := some { Scheme := "http", Host := "127.0.0.1:8080", Path := "" }
    invitationAPIBaseURL := some { Scheme := "http", Host := "127.0.0.1:8080", Path := "" }
    tokenURL := some tokenURL
    authConfig := none
    tokenSource := none
    httpClient := some { Timeout := defaultTimeout, Do := fun _ => .ok resp } }

/-- The request of `TestCreateInvitation`. -/
def testRequest : CreateInvitationRequest :=
  { BusinessUnitID := "123"
    ConsumerEmail := "foobar@invalid"
    ReplyTo := ""
    ReferenceNumber := "users/12344"
    ConsumerName := "John Doe"
    Locale := "en-US"
    LocationID := ""
    SenderEmail := ""
    SenderName := ""
    ServiceReviewInvitation := none }

/-- The message of the error fixture. -/
def testMessage : String := "'Consumer Email' is not in the correct format."

/-- The error body with message `m`: the object with the one member
`message`. -/
def errorBody (m : String) : RespBody := .value (.object [("message", .string m)])

/-- A client like the package default, without authentication, whose
invitation base URL is `base` and whose transport answers with `resp`. -/
def plainClient (base : URL) (resp : Response) : Client :=
  { debug := false
    apiBaseURL := some apiBaseURL
    invitationAPIBaseURL := some base
    tokenURL := some tokenURL
    authConfig := none
    tokenSource := none
    httpClient := some { Timeout := defaultTimeout, Do := fun _ => .ok resp } }

/-- A parse that refuses every URL.  The examples below build requests for
canonical URLs only, which `NewRequest` takes as they are, so the choice of
the parse plays no part in them. -/
def refusingParse : URLParse := fun _ => .error (.other "net/url: parse")

/-- A world without token endpoint and without network. -/
def offlineEnv : Env :=
  { PasswordCredentialsToken := fun _ _ _ => .error (.other "no token endpoint")
    ReuseTokenSource := fun _ t => ⟨.ok t⟩
    DefaultDo := fun _ => .error (.other "no network") }

/-- An option written by the caller that leaves the client alone and returns
an error. -/
def refusingOption : ClientOption := ⟨fun c => .ret (c, some (.other "refused"))⟩

/-- The options that the package provides, each with its argument. -/
inductive PackageOption where
  | APIBaseURL (u : Option URL)
  | TokenURL (u : Option URL)
  | InvitationAPIBaseURL (u : Option URL)
  | AuthConfig (conf : Option PasswordGrantConfig)
  | Debug (b : Bool)
  | HTTPClient (h : Option HTTPClient)

/-- The `ClientOption` that the named constructor of the package returns. -/
def PackageOption.build : PackageOption → ClientOption
  | .APIBaseURL u => ClientOption.APIBaseURL u
  | .TokenURL u => ClientOption.TokenURL u
  | .InvitationAPIBaseURL u => ClientOption.InvitationAPIBaseURL u
  | .AuthConfig conf => ClientOption.AuthConfig conf
  | .Debug b => ClientOption.Debug b
  | .HTTPClient h => ClientOption.HTTPClient h

/-! ## Auxiliary definitions for the statements -/

/-- The URL with the scheme and host of `base` and with the path of `base`
followed by `private/business-units/` + id + `/email-invitations`. -/
def invitationURL (base : URL) (id : String) : URL :=
  { Scheme := base.Scheme, Host := base.Host, Path := base.Path ++ invitationPathf id }

/-- The header of a request before the token is attached. -/
def baseHeader (body : Option Body) : Header :=
  if body.isSome then Header.Set [] "Content-Type" "application/json" else []

/-- The result of `do` followed by `parseError`, given the decode outcome. -/
def afterDecode {α : Type} (decoded : Except GoError α) (statusCode : Int) :
    Go (Option α × Option GoError) :=
  match decoded with
  | .error err => .ret (none, some err)
  | .ok res =>
    match parseError statusCode with
    | some err => .ret (none, some err)
    | none => .ret (some res, none)

/-- The member names that the interface description lists for the body of an
invitation request. -/
def listedBodyKeys : List String :=
  ["consumerEmail", "replyTo", "referenceNumber", "consumerName", "locale", "locationId",
    "senderEmail", "senderName", "serviceReviewInvitation"]

/-! ## Status mapping -/

/-- C1: `parseError` gives no error for 200, 201 and 202, `ErrInvalidArgument`
for 400 and 422, `ErrUnauthenticated` for 401, `ErrNotFound` for 404 and
`ErrInternal` for every other status; the four errors read `INVALID_ARGUMENT`,
`UNAUTHENTICATED`, `NOT_FOUND` and `INTERNAL`. -/
theorem parseError_table (s : Int) :
    parseError s =
        (if s = 200 ∨ s = 201 ∨ s = 202 then none
         else if s = 400 ∨ s = 422 then some ErrInvalidArgument
         else if s = 401 then some ErrUnauthenticated
         else if s = 404 then some ErrNotFound
         else some ErrInternal) ∧
      ErrInvalidArgument.Error = "INVALID_ARGUMENT" ∧
      ErrUnauthenticated.Error = "UNAUTHENTICATED" ∧
      ErrNotFound.Error = "NOT_FOUND" ∧
      ErrInternal.Error = "INTERNAL" := by
  refine ⟨?_, rfl, rfl, rfl, rfl⟩
  simp only [parseError, StatusOK, StatusCreated, StatusAccepted, StatusBadRequest,
    StatusUnprocessableEntity, StatusUnauthorized, StatusNotFound]

/-! ## URL resolution -/

theorem splitSlash_ne_nil (l : List Char) : splitSlash l ≠ [] := by
  cases l with
  | nil => simp [splitSlash]
  | cons c cs =>
    simp only [splitSlash]
    split
    · simp
    · split <;> simp

theorem splitSlash_append_slash (x y : List Char) :
    splitSlash (x ++ '/' :: y) = splitSlash x ++ splitSlash y := by
  induction x with
  | nil => simp [splitSlash]
  | cons c cs ih =>
    by_cases hc : c = '/'
    · simp [splitSlash, hc, ih]
    · simp only [List.cons_append, splitSlash, hc, if_false]
      have ih2 : splitSlash (cs.append ('/' :: y)) = splitSlash cs ++ splitSlash y := ih
      rw [ih2]
      cases h : splitSlash cs with
      | nil => exact absurd h (splitSlash_ne_nil cs)
      | cons s ss => simp

theorem splitSlash_unsplit (l : List Char) :
    ∃ s0 rest, splitSlash l = s0 :: rest ∧ s0 ++ (rest.map (fun s => '/' :: s)).flatten = l := by
  induction l with
  | nil => exact ⟨[], [], rfl, rfl⟩
  | cons c cs ih =>
    obtain ⟨s0, rest, h1, h2⟩ := ih
    by_cases hc : c = '/'
    · refine ⟨[], s0 :: rest, by simp [splitSlash, hc, h1], ?_⟩
      simp [hc, h2]
    · refine ⟨c :: s0, rest, by simp [splitSlash, hc, h1], ?_⟩
      simp [h2]

theorem foldl_resolveStep_dotFree (segs : List (List Char)) (dst : List Char)
    (h : ∀ s ∈ segs, s ≠ ['.'] ∧ s ≠ ['.', '.']) :
    segs.foldl resolveStep (dst, false) = (dst ++ (segs.map (fun s => '/' :: s)).flatten, false) := by
  induction segs generalizing dst with
  | nil => simp
  | cons s ss ih =>
    have hs := h s (List.mem_cons_self _ _)
    have ih2 := ih (dst ++ '/' :: s) (fun t ht => h t (List.mem_cons_of_mem _ ht))
    simp only [List.foldl_cons, resolveStep, hs.1, hs.2, if_false]
    simp at ih2 ⊢
    exact ih2

theorem uptoLastSlash_of_getLast (b : List Char) (h : b.getLast? = some '/') :
    uptoLastSlash b = b := by
  obtain ⟨b1, rfl⟩ : ∃ b1, b = b1 ++ ['/'] := by
    rcases List.eq_nil_or_concat b with h0 | ⟨b1, c, rfl⟩
    · subst h0; simp at h
    · simp at h; subst h; exact ⟨b1, by simp⟩
  simp [uptoLastSlash, List.dropWhile]

theorem resolvePath_dotFree (b r : List Char) (hb0 : b.head? = some '/')
    (hb1 : b.getLast? = some '/') (hr : r ≠ []) (hr0 : r.head? ≠ some '/')
    (hd : dotFree (b ++ r) = true) : resolvePath b r = b ++ r := by
  obtain ⟨s0, rest, h1, h2⟩ := splitSlash_unsplit (b ++ r)
  have hall : ∀ s ∈ s0 :: rest, s ≠ ['.'] ∧ s ≠ ['.', '.'] := by
    intro s hs
    unfold dotFree at hd
    rw [h1] at hd
    have := (List.all_eq_true.mp hd) s hs
    simpa using this
  obtain ⟨t, ht⟩ : ∃ t, b = '/' :: t := by
    cases b with
    | nil => simp at hb0
    | cons c t => simp at hb0; exact ⟨t, by rw [hb0]⟩
  have hfull : b ++ r ≠ [] := by simp [ht]
  have hlast : ¬ ((s0 :: rest).getLast? = some ['.'] ∨ (s0 :: rest).getLast? = some ['.', '.']) := by
    intro hl
    have hmem : ∀ x, (s0 :: rest).getLast? = some x → x ∈ s0 :: rest := fun x hx =>
      List.mem_of_getLast?_eq_some hx
    rcases hl with hl | hl
    · exact (hall _ (hmem _ hl)).1 rfl
    · exact (hall _ (hmem _ hl)).2 rfl
  have hfold : (s0 :: rest).foldl resolveStep (['/'], true) = ('/' :: (b ++ r), false) := by
    have h0 := hall s0 (List.mem_cons_self _ _)
    rw [List.foldl_cons]
    have : resolveStep (['/'], true) s0 = ('/' :: s0, false) := by
      simp [resolveStep, h0.1, h0.2]
    rw [this, foldl_resolveStep_dotFree rest _ (fun s hs => hall s (List.mem_cons_of_mem _ hs))]
    simp [← h2]
  have hfullEq : (if r = [] then b else if r.head? ≠ some '/' then uptoLastSlash b ++ r else r)
      = b ++ r := by
    rw [if_neg hr, if_pos hr0, uptoLastSlash_of_getLast b hb1]
  simp only [resolvePath]
  rw [hfullEq, if_neg hfull, h1, hfold, if_neg hlast]
  simp [ht]


theorem dotFree_invitationPath (b : List Char) (id : String) (hb1 : b.getLast? = some '/')
    (hb : dotFree b = true) (hid : dotFree id.data = true) :
    dotFree (b ++ (invitationPathf id).data) = true := by
  obtain ⟨b1, rfl⟩ : ∃ b1, b = b1 ++ ['/'] := by
    rcases List.eq_nil_or_concat b with h0 | ⟨b1, c, rfl⟩
    · subst h0; simp at hb1
    · simp at hb1; subst hb1; exact ⟨b1, by simp⟩
  have hshape : b1 ++ ['/'] ++ (invitationPathf id).data =
      b1 ++ '/' :: ("private".data ++ '/' :: ("business-units".data ++
        '/' :: (id.data ++ '/' :: "email-invitations".data))) := by
    simp [invitationPathf, String.data_append]
  have hb2 : dotFree (b1 ++ '/' :: []) = true := by simpa using hb
  rw [hshape]
  unfold dotFree at hb2 hid ⊢
  rw [splitSlash_append_slash] at hb2 ⊢
  rw [splitSlash_append_slash, splitSlash_append_slash, splitSlash_append_slash]
  rw [List.all_append] at hb2
  simp only [List.all_append, Bool.and_eq_true] at hb2 ⊢
  refine ⟨hb2.1, by decide, by decide, hid, by decide⟩

/-! ## Building a request -/

theorem getLast_canonicalHost (h : String) (hc : canonicalHost h = true) :
    h.data.getLast? ≠ some ':' := by
  unfold canonicalHost at hc
  simp only [Bool.and_eq_true, Bool.or_eq_true] at hc
  obtain ⟨⟨hne, hname⟩, hport⟩ := hc
  have hsplit := List.takeWhile_append_dropWhile (fun c => c != ':') h.data
  cases hd : h.data.dropWhile (fun c => c != ':') with
  | nil =>
    rw [hd, List.append_nil] at hsplit
    intro hl
    have hmem : ':' ∈ h.data := List.mem_of_getLast?_eq_some hl
    rw [← hsplit] at hmem
    have := List.mem_takeWhile_imp hmem
    simp at this
  | cons p ps =>
    rw [hd] at hport hsplit
    rcases hport with hport | hport
    · simp at hport
    · simp only [List.tail_cons, Bool.and_eq_true] at hport
      obtain ⟨hps, hdig⟩ := hport
      intro hl
      rw [← hsplit] at hl
      have hps2 : ps ≠ [] := by
        intro h0
        simp [h0] at hps
      have hlast : (List.takeWhile (fun c => c != ':') h.data ++ p :: ps).getLast? = ps.getLast? := by
        rw [show List.takeWhile (fun c => c != ':') h.data ++ p :: ps
          = (List.takeWhile (fun c => c != ':') h.data ++ [p]) ++ ps by simp]
        rw [List.getLast?_append_of_ne_nil _ hps2]
      rw [hlast] at hl
      have hmem : ':' ∈ ps := List.mem_of_getLast?_eq_some hl
      have := List.all_eq_true.mp hdig _ hmem
      revert this
      decide

theorem removeEmptyPort_canonical (h : String) (hc : canonicalHost h = true) :
    removeEmptyPort h = h := by
  unfold removeEmptyPort
  simp [getLast_canonicalHost h hc]

/-- On a canonical URL `NewRequest` does not consult the parse. -/
theorem NewRequest_canonical (parse : URLParse) (method : String) (u : URL) (b : Option JSON)
    (hu : u.canonical = true) :
    NewRequest parse method u b =
      if validMethod (if method = "" then "GET" else method) then
        .ok { Method := if method = "" then "GET" else method, URL := u, Header := [], Body := b }
      else .error (.other ("net/http: invalid method " ++
        (if method = "" then "GET" else method).quote)) := by
  have hh : canonicalHost u.Host = true := by
    unfold URL.canonical at hu
    simp only [Bool.and_eq_true] at hu
    exact hu.1.2
  simp only [NewRequest, hu, if_true, removeEmptyPort_canonical _ hh]

theorem NewRequest_ok (parse : URLParse) (method : String) (u : URL) (b : Option JSON)
    (req : Request) (h : NewRequest parse method u b = .ok req) :
    req.Method = (if method = "" then "GET" else method) ∧ req.Header = [] ∧ req.Body = b ∧
      (u.canonical = true → req.URL = u) ∧
      (u.canonical = false →
        ∃ parsed, parse u = .ok parsed ∧
          req.URL = { parsed with Host := removeEmptyPort parsed.Host }) := by
  by_cases hv : validMethod (if method = "" then "GET" else method) = true
  · by_cases hu : u.canonical = true
    · rw [NewRequest_canonical parse method u b hu] at h
      simp only [hv, if_true, Except.ok.injEq] at h
      subst h
      exact ⟨rfl, rfl, rfl, fun _ => rfl, fun hf => by rw [hu] at hf; exact absurd hf (by simp)⟩
    · have hu2 : u.canonical = false := by simpa using hu
      cases hp : parse u with
      | error err => simp [NewRequest, hv, hu2, hp] at h
      | ok parsed =>
        simp only [NewRequest, hv, hu2, hp, if_true, Bool.false_eq_true, if_false,
          Except.ok.injEq] at h
        subst h
        exact ⟨rfl, rfl, rfl, fun ht => absurd ht hu, fun _ => ⟨parsed, rfl, rfl⟩⟩
  · simp [NewRequest, hv] at h

/-- What a request returned by `newRequest` looks like. -/
theorem newRequest_some (c : Client) (parse : URLParse) (method : String) (u : URL)
    (body : Option Body) (req : Request) (h : (c.newRequest parse method u body).1 = some req) :
    req.Method = (if method = "" then "GET" else method) ∧
      (∃ req0, NewRequest parse method u (body.map Body.Marshal) = .ok req0 ∧
        req.URL = req0.URL) ∧
      req.Body = body.map Body.Marshal ∧
      ((c.tokenSource = none ∧ req.Header = baseHeader body) ∨
        ∃ ts tkn, c.tokenSource = some ts ∧ ts.Token = .ok tkn ∧
          req.Header = (baseHeader body).Set "Authorization" ("Bearer " ++ tkn.AccessToken)) := by
  cases hN : NewRequest parse method u (body.map Body.Marshal) with
  | error err => simp [Client.newRequest, hN] at h
  | ok req0 =>
    obtain ⟨hm, hh, hb, -, -⟩ := NewRequest_ok _ _ _ _ _ hN
    cases hts : c.tokenSource with
    | none =>
      simp only [Client.newRequest, hN, hts, Option.some.injEq] at h
      subst h
      refine ⟨?_, ⟨req0, rfl, ?_⟩, ?_, Or.inl ⟨rfl, ?_⟩⟩ <;> cases body <;>
        simp [baseHeader, hm, hh, hb]
    | some ts =>
      cases htk : ts.Token with
      | error err => simp [Client.newRequest, hN, hts, htk] at h
      | ok tkn =>
        simp only [Client.newRequest, hN, hts, htk, Option.some.injEq] at h
        subst h
        refine ⟨?_, ⟨req0, rfl, ?_⟩, ?_, Or.inr ⟨ts, tkn, rfl, htk, ?_⟩⟩ <;> cases body <;>
          simp [baseHeader, hm, hh, hb]

theorem newInvitationAPIRequest_some (c : Client) (parse : URLParse) (method path : String)
    (body : Option Body) (req : Request) (e : Option GoError)
    (h : c.newInvitationAPIRequest parse method path body = .ret (some req, e)) :
    ∃ base, c.invitationAPIBaseURL = some base ∧
      (c.newRequest parse method
        (base.ResolveReference { Scheme := "", Host := "", Path := path }) body).1 = some req := by
  unfold Client.newInvitationAPIRequest at h
  cases hb : c.invitationAPIBaseURL with
  | none => simp [hb] at h
  | some base =>
    simp only [hb, Go.ret.injEq] at h
    exact ⟨base, rfl, by rw [h]⟩


/-! ## The URL of the invitation requests -/

/-- C8, refuted as stated: with base `https://host/v1/` the id `..` (not
empty) gives the path `/v1/private/email-invitations`, which is not the base
path followed by `private/business-units/../email-invitations`; and with the
base path `v1/` (ending in a slash) and id `123` the path gains a leading
slash. -/
theorem invitation_url_counterexample :
    ((URL.mk "https" "host" "/v1/").ResolveReference
        { Scheme := "", Host := "", Path := invitationPathf ".." }).Path
        = "/v1/private/email-invitations" ∧
      "/v1/private/email-invitations" ≠ "/v1/" ++ invitationPathf ".." ∧
      ((URL.mk "https" "host" "v1/").ResolveReference
        { Scheme := "", Host := "", Path := invitationPathf "123" }).Path
        ≠ "v1/" ++ invitationPathf "123" := by
  refine ⟨by rfl, by decide, by decide⟩

/-- C8, amended: when the path of the invitation base URL begins and ends
with a slash and neither it nor the business-unit id has a piece `.` or `..`
between slashes, `newInvitationAPIRequest` on the path
`fmt.Sprintf(invitationPathf, id)` (as `CreateInvitation` and `ListTemplates`
call it) hands to `newRequest` the URL with the scheme and host of the base
and with the base path followed by `private/business-units/` + id +
`/email-invitations`.  A request that is built carries that very URL when it
is canonical; otherwise it carries what `http.NewRequest` parses from its
`String()`, with an empty port removed from the host. -/
theorem invitation_url_dotFree (c : Client) (parse : URLParse) (base : URL) (id method : String)
    (body : Option Body)
    (hc : c.invitationAPIBaseURL = some base)
    (h0 : base.Path.data.head? = some '/') (h1 : base.Path.data.getLast? = some '/')
    (hb : dotFree base.Path.data = true) (hid : dotFree id.data = true) :
    c.newInvitationAPIRequest parse method (invitationPathf id) body
        = .ret (c.newRequest parse method (invitationURL base id) body) ∧
      ∀ (req : Request) (e : Option GoError),
        c.newInvitationAPIRequest parse method (invitationPathf id) body = .ret (some req, e) →
        ((invitationURL base id).canonical = true → req.URL = invitationURL base id) ∧
        ((invitationURL base id).canonical = false →
          ∃ parsed, parse (invitationURL base id) = .ok parsed ∧
            req.URL = { parsed with Host := removeEmptyPort parsed.Host }) := by
  have hp : resolvePath base.Path.data (invitationPathf id).data
      = base.Path.data ++ (invitationPathf id).data := by
    apply resolvePath_dotFree _ _ h0 h1
    · simp [invitationPathf, String.data_append]
    · simp [invitationPathf, String.data_append]
    · exact dotFree_invitationPath _ _ h1 hb hid
  have hu : base.ResolveReference { Scheme := "", Host := "", Path := invitationPathf id }
      = invitationURL base id := by
    simp only [URL.ResolveReference, hp, invitationURL]
    simp [String.ext_iff, String.data_append]
  have hcall : c.newInvitationAPIRequest parse method (invitationPathf id) body
      = .ret (c.newRequest parse method (invitationURL base id) body) := by
    simp only [Client.newInvitationAPIRequest, hc, hu]
  refine ⟨hcall, ?_⟩
  intro req e hreq
  rw [hcall] at hreq
  simp only [Go.ret.injEq] at hreq
  obtain ⟨-, ⟨req0, hN, hurl⟩, -, -⟩ :=
    newRequest_some c parse method _ body req (by rw [hreq])
  obtain ⟨-, -, -, hcan, hnot⟩ := NewRequest_ok _ _ _ _ _ hN
  rw [hurl]
  exact ⟨hcan, hnot⟩

/-- C8, the amended statement at base `https://host/v1/` and id `123`: the
request is built and its URL is
`https://host/v1/private/business-units/123/email-invitations`. -/
theorem invitation_url_dotFree_witness :
    ∃ req : Request,
      (plainClient (URL.mk "https" "host" "/v1/") ⟨200, 0, .empty⟩).newInvitationAPIRequest
        refusingParse "POST" (invitationPathf "123") (some (.createInvitation testRequest))
        = .ret (some req, none) ∧
      req.URL = URL.mk "https" "host" "/v1/private/business-units/123/email-invitations" :=
  ⟨_, rfl,
    ((invitation_url_dotFree (plainClient (URL.mk "https" "host" "/v1/") ⟨200, 0, .empty⟩)
      refusingParse (URL.mk "https" "host" "/v1/") "123" "POST"
      (some (.createInvitation testRequest)) rfl (by decide) (by decide) (by decide)
      (by decide)).2 _ none rfl).1 (by decide)⟩


/-! ## The two operations -/

theorem CreateInvitation_of_response (c : Client) (parse : URLParse) (h : HTTPClient) (r : CreateInvitationRequest)
    (req : Request) (resp : Response) (hh : c.httpClient = some h)
    (hreq : c.newInvitationAPIRequest parse "POST" (invitationPathf r.BusinessUnitID)
      (some (.createInvitation r)) = .ret (some req, none))
    (hdo : h.Do req = .ok resp) :
    c.CreateInvitation parse r =
      afterDecode (if resp.ContentLength ≠ 0 then
        Decode CreateInvitationResponse.Unmarshal resp.Body {} else .ok {}) resp.StatusCode := by
  by_cases hcl : resp.ContentLength = 0
  · cases hp : parseError resp.StatusCode <;>
      simp [Client.CreateInvitation, hreq, Client.do, hh, hdo, hcl, afterDecode, hp]
  · cases hd : Decode CreateInvitationResponse.Unmarshal resp.Body {} <;>
      cases hp : parseError resp.StatusCode <;>
      simp [Client.CreateInvitation, hreq, Client.do, hh, hdo, hcl, afterDecode, hp, hd]

theorem ListTemplates_of_response (c : Client) (parse : URLParse) (h : HTTPClient) (r : ListTemplatesRequest)
    (req : Request) (resp : Response) (hh : c.httpClient = some h)
    (hreq : c.newInvitationAPIRequest parse "GET" (invitationPathf r.BusinessUnitID)
      (some (.listTemplates r)) = .ret (some req, none))
    (hdo : h.Do req = .ok resp) :
    c.ListTemplates parse r =
      afterDecode (if resp.ContentLength ≠ 0 then
        Decode ListTemplatesResponse.Unmarshal resp.Body { Templates := [] }
        else .ok { Templates := [] }) resp.StatusCode := by
  by_cases hcl : resp.ContentLength = 0
  · cases hp : parseError resp.StatusCode <;>
      simp [Client.ListTemplates, hreq, Client.do, hh, hdo, hcl, afterDecode, hp]
  · cases hd : Decode ListTemplatesResponse.Unmarshal resp.Body { Templates := [] } <;>
      cases hp : parseError resp.StatusCode <;>
      simp [Client.ListTemplates, hreq, Client.do, hh, hdo, hcl, afterDecode, hp, hd]

theorem parseError_domain (s : Int) (hs : s ≠ 200 ∧ s ≠ 201 ∧ s ≠ 202) :
    ∃ k, parseError s = some (.domain k) := by
  obtain ⟨h0, h1, h2⟩ := hs
  simp only [parseError, StatusOK, StatusCreated, StatusAccepted, h0, h1, h2, or_self, if_false]
  split
  · exact ⟨_, rfl⟩
  · split
    · exact ⟨_, rfl⟩
    · split <;> exact ⟨_, rfl⟩

/-- C2, refuted as stated: on the input of the test (id `123`, status 400,
body with the message of the fixture) `CreateInvitation` fails with the error
`ErrInvalidArgument`, whose text is `INVALID_ARGUMENT` and not the message
followed by `: INVALID_ARGUMENT`. -/
theorem createInvitation_message_counterexample :
    ¬ ∃ e, (testClient ⟨400, 61, errorBody testMessage⟩).CreateInvitation refusingParse testRequest
        = .ret (none, some e) ∧ e.Error = testMessage ++ ": INVALID_ARGUMENT" := by
  rintro ⟨e, he, htext⟩
  have hrun : (testClient ⟨400, 61, errorBody testMessage⟩).CreateInvitation refusingParse testRequest
      = .ret (none, some ErrInvalidArgument) := rfl
  rw [hrun] at he
  simp only [Go.ret.injEq, Prod.mk.injEq, Option.some.injEq, true_and] at he
  subst he
  revert htext
  decide

/-- C2, amended: when the transport answers the invitation request with
status 400 and the JSON body with member `message` equal to `m`,
`CreateInvitation` fails with an error of the domain kind
`INVALID_ARGUMENT`. -/
theorem createInvitation_400_kind (c : Client) (parse : URLParse) (h : HTTPClient) (r : CreateInvitationRequest)
    (req : Request) (resp : Response) (m : String) (hh : c.httpClient = some h)
    (hreq : c.newInvitationAPIRequest parse "POST" (invitationPathf r.BusinessUnitID)
      (some (.createInvitation r)) = .ret (some req, none))
    (hdo : h.Do req = .ok resp) (hs : resp.StatusCode = 400) (hb : resp.Body = errorBody m) :
    ∃ e, c.CreateInvitation parse r = .ret (none, some e) ∧ e.kind = some .InvalidArgument := by
  refine ⟨ErrInvalidArgument, ?_, rfl⟩
  rw [CreateInvitation_of_response c parse h r req resp hh hreq hdo, hs, hb]
  by_cases hcl : resp.ContentLength = 0 <;>
    simp [hcl, afterDecode, Decode, errorBody, CreateInvitationResponse.Unmarshal, parseError,
      StatusOK, StatusCreated, StatusAccepted, StatusBadRequest]

/-- C2, the amended statement on the input of the test. -/
theorem createInvitation_400_kind_witness :
    ∃ e, (testClient ⟨400, 61, errorBody testMessage⟩).CreateInvitation refusingParse testRequest
      = .ret (none, some e) ∧ e.kind = some .InvalidArgument :=
  createInvitation_400_kind (testClient ⟨400, 61, errorBody testMessage⟩) refusingParse
    { Timeout := defaultTimeout, Do := fun _ => .ok ⟨400, 61, errorBody testMessage⟩ }
    testRequest _ ⟨400, 61, errorBody testMessage⟩ testMessage rfl rfl rfl rfl rfl

/-- C3, the code on the input of `TestCreateInvitation`: the error returned
is `ErrInvalidArgument`, whose text is `INVALID_ARGUMENT`; the text the test
asserts, `INVALID_ARGUMENT: ` followed by the message, is a different one. -/
theorem createInvitation_test_text :
    (testClient ⟨400, 61, errorBody testMessage⟩).CreateInvitation refusingParse testRequest
        = .ret (none, some ErrInvalidArgument) ∧
      ErrInvalidArgument.Error = "INVALID_ARGUMENT" ∧
      ErrInvalidArgument.Error ≠ "INVALID_ARGUMENT: " ++ testMessage := by
  refine ⟨rfl, rfl, by decide⟩

/-- C9, refuted as stated: a 404 response whose body is not JSON makes
`CreateInvitation` and `ListTemplates` fail with the decoder's syntax error,
which carries no domain kind, and not with `NOT_FOUND`. -/
theorem status_404_malformed_counterexample :
    (plainClient invitationAPIBaseURL
        ⟨404, 9, .malformed "invalid character 'N' looking for beginning of value"⟩).CreateInvitation
        refusingParse testRequest
        = .ret (none, some (.other "invalid character 'N' looking for beginning of value")) ∧
      (plainClient invitationAPIBaseURL
        ⟨404, 9, .malformed "invalid character 'N' looking for beginning of value"⟩).ListTemplates
        refusingParse ⟨"123"⟩
        = .ret (none, some (.other "invalid character 'N' looking for beginning of value")) ∧
      (GoError.other "invalid character 'N' looking for beginning of value").kind = none ∧
      parseError 404 = some ErrNotFound := by
  refine ⟨rfl, rfl, rfl, rfl⟩

/-- C9, amended: for a response with a status outside 200, 201 and 202, the
body is decoded whenever the content length is not zero, whatever the status.
`CreateInvitation` and `ListTemplates` fail with the domain error that
`parseError` gives for the status when the content length is zero or the body
decodes into the response record, and with the decode error when the content
length is not zero and the body does not decode. -/
theorem status_error_unless_decode_fails (c : Client) (parse : URLParse) (h : HTTPClient)
    (rc : CreateInvitationRequest) (rl : ListTemplatesRequest) (reqc reql : Request)
    (respc respl : Response) (hh : c.httpClient = some h)
    (hreqc : c.newInvitationAPIRequest parse "POST" (invitationPathf rc.BusinessUnitID)
      (some (.createInvitation rc)) = .ret (some reqc, none))
    (hdoc : h.Do reqc = .ok respc)
    (hsc : respc.StatusCode ≠ 200 ∧ respc.StatusCode ≠ 201 ∧ respc.StatusCode ≠ 202)
    (hreql : c.newInvitationAPIRequest parse "GET" (invitationPathf rl.BusinessUnitID)
      (some (.listTemplates rl)) = .ret (some reql, none))
    (hdol : h.Do reql = .ok respl)
    (hsl : respl.StatusCode ≠ 200 ∧ respl.StatusCode ≠ 201 ∧ respl.StatusCode ≠ 202) :
    (∃ k, parseError respc.StatusCode = some (.domain k) ∧
      ((respc.ContentLength = 0 ∨
          ∃ v, Decode CreateInvitationResponse.Unmarshal respc.Body {} = .ok v) →
        c.CreateInvitation parse rc = .ret (none, some (.domain k))) ∧
      (∀ err, respc.ContentLength ≠ 0 →
        Decode CreateInvitationResponse.Unmarshal respc.Body {} = .error err →
        c.CreateInvitation parse rc = .ret (none, some err))) ∧
    (∃ k, parseError respl.StatusCode = some (.domain k) ∧
      ((respl.ContentLength = 0 ∨
          ∃ v, Decode ListTemplatesResponse.Unmarshal respl.Body { Templates := [] } = .ok v) →
        c.ListTemplates parse rl = .ret (none, some (.domain k))) ∧
      (∀ err, respl.ContentLength ≠ 0 →
        Decode ListTemplatesResponse.Unmarshal respl.Body { Templates := [] } = .error err →
        c.ListTemplates parse rl = .ret (none, some err))) := by
  constructor
  · obtain ⟨k, hk⟩ := parseError_domain _ hsc
    refine ⟨k, hk, ?_, ?_⟩
    · intro hd
      rw [CreateInvitation_of_response c parse h rc reqc respc hh hreqc hdoc]
      by_cases hcl : respc.ContentLength = 0
      · simp [hcl, afterDecode, hk]
      · rcases hd with hd | ⟨v, hv⟩
        · exact absurd hd hcl
        · simp [hcl, afterDecode, hk, hv]
    · intro err hcl hd
      rw [CreateInvitation_of_response c parse h rc reqc respc hh hreqc hdoc]
      simp [hcl, afterDecode, hd]
  · obtain ⟨k, hk⟩ := parseError_domain _ hsl
    refine ⟨k, hk, ?_, ?_⟩
    · intro hd
      rw [ListTemplates_of_response c parse h rl reql respl hh hreql hdol]
      by_cases hcl : respl.ContentLength = 0
      · simp [hcl, afterDecode, hk]
      · rcases hd with hd | ⟨v, hv⟩
        · exact absurd hd hcl
        · simp [hcl, afterDecode, hk, hv]
    · intro err hcl hd
      rw [ListTemplates_of_response c parse h rl reql respl hh hreql hdol]
      simp [hcl, afterDecode, hd]

/-- C9, the amended statement at a 404 response with the JSON error body of
the fixture, for both operations: the result is `NOT_FOUND`. -/
theorem status_error_unless_decode_fails_witness :
    (plainClient invitationAPIBaseURL ⟨404, 61, errorBody testMessage⟩).CreateInvitation refusingParse testRequest
        = .ret (none, some ErrNotFound) ∧
      (plainClient invitationAPIBaseURL ⟨404, 61, errorBody testMessage⟩).ListTemplates refusingParse ⟨"123"⟩
        = .ret (none, some ErrNotFound) := by
  have key := status_error_unless_decode_fails
    (plainClient invitationAPIBaseURL ⟨404, 61, errorBody testMessage⟩) refusingParse
    { Timeout := defaultTimeout, Do := fun _ => .ok ⟨404, 61, errorBody testMessage⟩ }
    testRequest ⟨"123"⟩ _ _ ⟨404, 61, errorBody testMessage⟩ ⟨404, 61, errorBody testMessage⟩
    rfl rfl rfl (by decide) rfl rfl (by decide)
  obtain ⟨⟨k, hk, hc, _⟩, ⟨k2, hk2, hl, _⟩⟩ := key
  have e1 : k = .NotFound := by
    have : parseError 404 = some (.domain k) := hk
    simpa [parseError, StatusOK, StatusCreated, StatusAccepted, StatusBadRequest,
      StatusUnprocessableEntity, StatusUnauthorized, StatusNotFound, ErrNotFound] using this.symm
  have e2 : k2 = .NotFound := by
    have : parseError 404 = some (.domain k2) := hk2
    simpa [parseError, StatusOK, StatusCreated, StatusAccepted, StatusBadRequest,
      StatusUnprocessableEntity, StatusUnauthorized, StatusNotFound, ErrNotFound] using this.symm
  subst e1 e2
  exact ⟨hc (Or.inr ⟨_, rfl⟩), hl (Or.inr ⟨_, rfl⟩)⟩


/-! ## Request bodies -/

theorem mem_omitemptyString (key val : String) (kv : String × JSON)
    (h : kv ∈ omitemptyString key val) : kv.1 = key := by
  unfold omitemptyString at h
  split at h
  · simp at h
  · simp at h
    rw [h]

/-- C4, refuted as stated: the body that `CreateInvitation` sends for the
request of the test has the member `BusinessUnitID`, which is not among the
listed names, and its value is the identifier `123`. -/
theorem createInvitation_body_counterexample :
    ∃ (req : Request) (rest : List (String × JSON)), (testClient ⟨400, 61, errorBody testMessage⟩).newInvitationAPIRequest refusingParse "POST"
        (invitationPathf testRequest.BusinessUnitID) (some (.createInvitation testRequest))
        = .ret (some req, none) ∧
      req.Body = some (.object (("BusinessUnitID", .string "123") :: rest)) ∧
      "BusinessUnitID" ∉ listedBodyKeys :=
  ⟨_, _, rfl, rfl, by decide⟩

/-- C4, amended: the JSON body that `CreateInvitation` sends is the
marshalling of the request; its first member is `BusinessUnitID` with the
business-unit identifier as value (the identifier is in the path and in the
body), and its member names are drawn only from `BusinessUnitID` and the
nine listed names. -/
theorem createInvitation_body_keys (c : Client) (parse : URLParse) (r : CreateInvitationRequest) (req : Request)
    (e : Option GoError)
    (h : c.newInvitationAPIRequest parse "POST" (invitationPathf r.BusinessUnitID)
      (some (.createInvitation r)) = .ret (some req, e)) :
    req.Body = some r.Marshal ∧
      (∃ rest, r.Marshal = .object (("BusinessUnitID", .string r.BusinessUnitID) :: rest)) ∧
      ∀ k ∈ r.Marshal.keys, k ∈ "BusinessUnitID" :: listedBodyKeys := by
  obtain ⟨base, _, hreq⟩ := newInvitationAPIRequest_some _ _ _ _ _ _ _ h
  refine ⟨(newRequest_some _ _ _ _ _ _ hreq).2.2.1, ⟨_, rfl⟩, ?_⟩
  intro k hk
  simp only [CreateInvitationRequest.Marshal, JSON.keys, List.mem_map, List.mem_append] at hk
  obtain ⟨kv, hkv, rfl⟩ := hk
  rcases hkv with ((((((((hm | hm) | hm) | hm) | hm) | hm) | hm) | hm) | hm)
  · simp at hm
    rcases hm with rfl | rfl <;> simp [listedBodyKeys]
  all_goals first
    | (rw [mem_omitemptyString _ _ _ hm]; simp [listedBodyKeys])
    | (cases hs : r.ServiceReviewInvitation with
        | none => simp [hs] at hm
        | some s => simp [hs] at hm; rw [hm]; simp [listedBodyKeys])

/-- C4, the amended statement on the request of the test. -/
theorem createInvitation_body_keys_witness :
    ∃ req : Request, req.Body = some testRequest.Marshal ∧
      (∃ rest, testRequest.Marshal
        = .object (("BusinessUnitID", .string testRequest.BusinessUnitID) :: rest)) ∧
      ∀ k ∈ testRequest.Marshal.keys, k ∈ "BusinessUnitID" :: listedBodyKeys :=
  ⟨_, createInvitation_body_keys (testClient ⟨400, 61, errorBody testMessage⟩) refusingParse testRequest _ none
    rfl⟩

/-- C5, refuted as stated: the request that `ListTemplates` builds for the
business unit `123` has a payload, the object with the member
`BusinessUnitID`, and carries `Content-Type: application/json`. -/
theorem listTemplates_request_counterexample :
    ∃ req : Request, (testClient ⟨200, 0, .empty⟩).newInvitationAPIRequest refusingParse "GET"
        (invitationPathf "123") (some (.listTemplates ⟨"123"⟩)) = .ret (some req, none) ∧
      req.Body = some (.object [("BusinessUnitID", .string "123")]) ∧
      req.Header.Get "Content-Type" = some "application/json" :=
  ⟨_, rfl, rfl, by decide⟩

/-- C5, amended: the request that `ListTemplates` builds is a GET whose
payload is the JSON marshalling of the request record, the object with the
one member `BusinessUnitID`, and which carries
`Content-Type: application/json`. -/
theorem listTemplates_request_body (c : Client) (parse : URLParse) (r : ListTemplatesRequest) (req : Request)
    (e : Option GoError)
    (h : c.newInvitationAPIRequest parse "GET" (invitationPathf r.BusinessUnitID)
      (some (.listTemplates r)) = .ret (some req, e)) :
    req.Method = "GET" ∧
      req.Body = some (.object [("BusinessUnitID", .string r.BusinessUnitID)]) ∧
      req.Header.Get "Content-Type" = some "application/json" := by
  obtain ⟨base, _, hreq⟩ := newInvitationAPIRequest_some _ _ _ _ _ _ _ h
  obtain ⟨hm, _, hb, hh⟩ := newRequest_some _ _ _ _ _ _ hreq
  refine ⟨by simpa using hm, hb, ?_⟩
  rcases hh with ⟨_, hh⟩ | ⟨ts, tkn, _, _, hh⟩ <;> rw [hh] <;>
    simp [baseHeader, Header.Set, Header.Get, List.find?]

/-- C5, the amended statement for the business unit `123`. -/
theorem listTemplates_request_body_witness :
    ∃ req : Request, req.Method = "GET" ∧
      req.Body = some (.object [("BusinessUnitID", .string "123")]) ∧
      req.Header.Get "Content-Type" = some "application/json" :=
  ⟨_, listTemplates_request_body (testClient ⟨200, 0, .empty⟩) refusingParse ⟨"123"⟩ _ none rfl⟩


/-! ## Token failures -/

/-- C6, the code at a token failure that is not a `RetrieveError`: for every
client, URL and body, `newRequest` with method `GET` returns the error of
`http.NewRequest` when that fails and otherwise a nil request together with a
nil error; at the URL of the default invitation API for the business unit
`123` it returns the nil request with the nil error. -/
theorem newRequest_untyped_token_error (c : Client) (parse : URLParse) (u : URL)
    (body : Option Body) (msg : String) :
    ({ c with tokenSource := some ⟨.error (.other msg)⟩ } : Client).newRequest parse "GET" u body
        = (match NewRequest parse "GET" u (body.map Body.Marshal) with
          | .error err => (none, some err)
          | .ok _ => (none, none)) ∧
      ({ c with tokenSource := some ⟨.error (.other msg)⟩ } : Client).newRequest parse "GET"
        (invitationURL invitationAPIBaseURL "123") body = (none, none) := by
  have hv : validMethod "GET" = true := by decide
  have hu : (invitationURL invitationAPIBaseURL "123").canonical = true := by decide
  constructor
  · cases hN : NewRequest parse "GET" u (body.map Body.Marshal) <;>
      simp [Client.newRequest, hN, classifyTokenError]
  · simp [Client.newRequest, NewRequest_canonical _ _ _ _ hu, hv, classifyTokenError]

/-- C7, the code at a `RetrieveError` with status 422: `newRequest` (when
`http.NewRequest` accepts the URL, as it does for the default invitation API
and the business unit `123`) wraps `ErrInternal` after the message and `: `,
while `parseError` gives `ErrInvalidArgument` for a response with status
422. -/
theorem newRequest_token_422 (c : Client) (parse : URLParse) (u : URL) (body : Option Body)
    (msg : String) :
    ({ c with tokenSource := some ⟨.error (.retrieve 422 msg)⟩ } : Client).newRequest parse
        "GET" u body
        = (match NewRequest parse "GET" u (body.map Body.Marshal) with
          | .error err => (none, some err)
          | .ok _ => (none, some (.wrapped msg .Internal))) ∧
      ({ c with tokenSource := some ⟨.error (.retrieve 422 msg)⟩ } : Client).newRequest parse
        "GET" (invitationURL invitationAPIBaseURL "123") body
        = (none, some (.wrapped msg .Internal)) ∧
      (GoError.wrapped msg .Internal).Error = msg ++ ": " ++ "INTERNAL" ∧
      (GoError.wrapped msg .Internal).kind = some .Internal ∧
      parseError 422 = some ErrInvalidArgument ∧
      ErrInvalidArgument.kind = some .InvalidArgument := by
  have hv : validMethod "GET" = true := by decide
  have hu : (invitationURL invitationAPIBaseURL "123").canonical = true := by decide
  refine ⟨?_, ?_, rfl, rfl, rfl, rfl⟩
  · cases hN : NewRequest parse "GET" u (body.map Body.Marshal) <;>
      simp [Client.newRequest, hN, classifyTokenError, StatusUnauthorized, StatusBadRequest,
        StatusNotFound]
  · simp [Client.newRequest, NewRequest_canonical _ _ _ _ hu, hv, classifyTokenError,
      StatusUnauthorized, StatusBadRequest, StatusNotFound]

/-- Away from status 422 the two classifications name the same kind whenever
`parseError` gives an error. -/
theorem token_kind_agrees_off_422 (s : Int) (msg : String) (h422 : s ≠ 422)
    (hs : s ≠ 200 ∧ s ≠ 201 ∧ s ≠ 202) :
    (classifyTokenError (.retrieve s msg)).bind GoError.kind
      = (parseError s).bind GoError.kind := by
  obtain ⟨h0, h1, h2⟩ := hs
  simp only [classifyTokenError, parseError, StatusOK, StatusCreated, StatusAccepted,
    StatusBadRequest, StatusUnprocessableEntity, StatusUnauthorized, StatusNotFound, h0, h1, h2,
    h422, or_self, or_false, if_false]
  by_cases a : s = 401
  · subst a; rfl
  · by_cases b : s = 400
    · subst b; rfl
    · by_cases d : s = 404
      · subst d; rfl
      · simp [a, b, d, ErrInternal, GoError.kind]

/-! ## Construction without authentication -/

theorem applyOptions_packaged (descs : List PackageOption) (c : Client) :
    ∃ c1, c.applyOptions (descs.map PackageOption.build) = .ret (c1, none) ∧
      c1.tokenSource = c.tokenSource ∧
      (c.authConfig = none → (∀ d ∈ descs, ∀ conf, d = .AuthConfig conf → conf = none) →
        c1.authConfig = none) := by
  induction descs generalizing c with
  | nil => exact ⟨c, rfl, rfl, fun h _ => h⟩
  | cons d descs ih =>
    cases d with
    | AuthConfig conf =>
      obtain ⟨c1, h1, h2, h3⟩ := ih { c with authConfig := conf }
      refine ⟨c1, by simp [Client.applyOptions, PackageOption.build, ClientOption.AuthConfig, h1],
        h2, ?_⟩
      intro _ hall
      apply h3
      · exact hall _ (List.mem_cons_self _ _) conf rfl
      · exact fun o ho => hall o (List.mem_cons_of_mem _ ho)
    | APIBaseURL u =>
      obtain ⟨c1, h1, h2, h3⟩ := ih { c with apiBaseURL := u }
      exact ⟨c1, by simp [Client.applyOptions, PackageOption.build, ClientOption.APIBaseURL, h1],
        h2, fun ha hall => h3 ha (fun o ho => hall o (List.mem_cons_of_mem _ ho))⟩
    | TokenURL u =>
      obtain ⟨c1, h1, h2, h3⟩ := ih { c with tokenURL := u }
      exact ⟨c1, by simp [Client.applyOptions, PackageOption.build, ClientOption.TokenURL, h1],
        h2, fun ha hall => h3 ha (fun o ho => hall o (List.mem_cons_of_mem _ ho))⟩
    | InvitationAPIBaseURL u =>
      obtain ⟨c1, h1, h2, h3⟩ := ih { c with invitationAPIBaseURL := u }
      exact ⟨c1, by simp [Client.applyOptions, PackageOption.build,
        ClientOption.InvitationAPIBaseURL, h1],
        h2, fun ha hall => h3 ha (fun o ho => hall o (List.mem_cons_of_mem _ ho))⟩
    | Debug b =>
      obtain ⟨c1, h1, h2, h3⟩ := ih { c with debug := b }
      exact ⟨c1, by simp [Client.applyOptions, PackageOption.build, ClientOption.Debug, h1],
        h2, fun ha hall => h3 ha (fun o ho => hall o (List.mem_cons_of_mem _ ho))⟩
    | HTTPClient h =>
      obtain ⟨c1, h1, h2, h3⟩ := ih { c with httpClient := h }
      exact ⟨c1, by simp [Client.applyOptions, PackageOption.build, ClientOption.HTTPClient, h1],
        h2, fun ha hall => h3 ha (fun o ho => hall o (List.mem_cons_of_mem _ ho))⟩

/-- C10, refuted as stated: a `ClientOption` is any `func(*Client) error`.
The option `refusingOption` is none of the `AuthConfig` options and leaves
the client as it finds it, so the list made of it supplies no authentication
config; `NewClient` on that list returns no client and the error of the
option. -/
theorem NewClient_option_error_counterexample :
    NewClient offlineEnv [refusingOption] = .ret (none, some (.other "refused")) ∧
      (∀ conf, refusingOption ≠ ClientOption.AuthConfig conf) ∧
      (∀ c, ∃ e, refusingOption.run c = .ret (c, some e)) := by
  refine ⟨rfl, ?_, fun c => ⟨_, rfl⟩⟩
  intro conf h
  have h2 := congrArg (fun o => o.run (testClient ⟨200, 0, .empty⟩)) h
  simp [refusingOption, ClientOption.AuthConfig] at h2

/-- C10, amended: for every list of options built by the six option
constructors of the package in which each `AuthConfig`, if any, has a nil
argument, `NewClient` returns a client and no error, the client has no token
source, its `newRequest` does build a request (for `GET`, every canonical URL
and every body), and every request that it builds, for every method, URL and
body, has no `Authorization` header. -/
theorem NewClient_without_auth (env : Env) (parse : URLParse) (descs : List PackageOption)
    (hno : ∀ d ∈ descs, ∀ conf, d = PackageOption.AuthConfig conf → conf = none) :
    ∃ c, NewClient env (descs.map PackageOption.build) = .ret (some c, none) ∧
      c.tokenSource = none ∧
      (∀ (u : URL) (body : Option Body), u.canonical = true →
        ∃ req, c.newRequest parse "GET" u body = (some req, none)) ∧
      ∀ (method : String) (u : URL) (body : Option Body) (req : Request),
        (c.newRequest parse method u body).1 = some req →
          req.Header.Get "Authorization" = none := by
  obtain ⟨c1, h1, h2, h3⟩ := applyOptions_packaged descs
    { debug := false
      apiBaseURL := some apiBaseURL
      invitationAPIBaseURL := some invitationAPIBaseURL
      tokenURL := some tokenURL
      authConfig := none
      tokenSource := none
      httpClient := some { Timeout := defaultTimeout, Do := env.DefaultDo } }
  have ha : c1.authConfig = none := h3 rfl hno
  have ht : c1.tokenSource = none := h2
  have hv : validMethod "GET" = true := by decide
  refine ⟨c1, by simp [NewClient, h1, ha], ht, ?_, ?_⟩
  · intro u body hu
    simp [Client.newRequest, NewRequest_canonical _ _ _ _ hu, hv, ht]
  intro method u body req hreq
  rcases (newRequest_some _ _ _ _ _ _ hreq).2.2.2 with ⟨_, hh⟩ | ⟨ts, tkn, hts, _, _⟩
  · rw [hh]
    cases body <;> simp [baseHeader, Header.Set, Header.Get, List.find?]
  · rw [ht] at hts
    exact absurd hts (by simp)

/-- C10, the amended statement on the options of the test setup, followed by
`AuthConfig(nil)`. -/
theorem NewClient_without_auth_witness :
    ∃ c, NewClient offlineEnv
        [ClientOption.APIBaseURL (some ⟨"http", "127.0.0.1:8080", ""⟩),
          ClientOption.InvitationAPIBaseURL (some ⟨"http", "127.0.0.1:8080", ""⟩),
          ClientOption.Debug true, ClientOption.AuthConfig none] = .ret (some c, none) ∧
      c.tokenSource = none ∧
      (∀ (u : URL) (body : Option Body), u.canonical = true →
        ∃ req, c.newRequest refusingParse "GET" u body = (some req, none)) ∧
      ∀ (method : String) (u : URL) (body : Option Body) (req : Request),
        (c.newRequest refusingParse method u body).1 = some req →
          req.Header.Get "Authorization" = none :=
  NewClient_without_auth offlineEnv refusingParse
    [.APIBaseURL (some ⟨"http", "127.0.0.1:8080", ""⟩),
      .InvitationAPIBaseURL (some ⟨"http", "127.0.0.1:8080", ""⟩), .Debug true,
      .AuthConfig none]
    (by
      intro d hd conf hc
      subst hc
      simpa using hd)

end Trustpilot
